import Mathlib

/-!
Verification of the physical-memory subsystem of libhermit-rs
(`src/librs/src/arch/x86_64/mm/physicalmem.rs`) and the multi-core boot
orchestration (`src/librs/src/arch/x86_64/mod.rs`), as a shallow embedding.

Machine integers (`usize`, `u32`) are embedded as `Nat`; the code under
consideration performs no wrapping arithmetic on the paths we model.
Rust panics (failed `assert!`, `expect`, `unwrap` on `Err`) are embedded as
the `Outcome.panic` constructor carrying a `Diagnostic` identifying the
failed check; a Rust `Result::Err(())` is `Outcome.err`.
-/

namespace Hermit

/-- A multiboot memory-map entry as consumed by `detect_from_multiboot_info`:
base address, length, and the availability flag queried via `is_available()`. -/
structure MultibootRegion where
  base_address : Nat
  length : Nat
  is_available : Bool
deriving DecidableEq, Repr

/-- `FreeListEntry` from `mm::freelist`: a half-open physical region.
The source field named `end` is embedded as `endAddr` (`end` is reserved). -/
structure FreeListEntry where
  start : Nat
  endAddr : Nat
deriving DecidableEq, Repr

/-- The diagnostic carried by a fatal termination (a Rust panic message). -/
inductive Diagnostic where
  | noMemoryMap
  | noAvailableRam
  | sizeZero
  | sizeNotPageMultiple
  | alignmentZero
  | sizeNotAlignmentMultiple
  | alignmentNotPageMultiple
  | outOfMemory
  | addressBelowKernelEnd
  | unwrapErr
deriving DecidableEq, Repr

/-- Outcome of a fallible operation: `ok` mirrors `Ok`, `err` mirrors the
recoverable `Err(())`, and `panic` mirrors process termination. -/
inductive Outcome (α : Type) where
  | ok : α → Outcome α
  | err : Outcome α
  | panic : Diagnostic → Outcome α
deriving DecidableEq, Repr

/-- Whether an outcome is a process-terminating panic. -/
def Outcome.isPanic {α : Type} : Outcome α → Bool
  | .panic _ => true
  | _ => false

/-- The externally supplied boot environment: the `mb_info` and `limit`
statics (zero means absent), the memory map reachable through `mb_info`
(`none` embeds a multiboot structure with no memory map, on which
`memory_map().expect(..)` panics), and the kernel bounds. The accessors
`mm::kernel_start_address()` / `mm::kernel_end_address()` are externally
supplied constants per the spec, embedded as fields. -/
structure BootInfo where
  mb_info : Nat
  memory_map : Option (List MultibootRegion)
  limit : Nat
  kernel_start_address : Nat
  kernel_end_address : Nat
deriving DecidableEq, Repr

/-- The filter applied to the memory map in `detect_from_multiboot_info`
(line 47): keep regions that are available and whose end exceeds the
kernel's end address. -/
def regionKept (env : BootInfo) (m : MultibootRegion) : Bool :=
  m.is_available && decide (env.kernel_end_address < m.base_address + m.length)

/-- The `FreeListEntry` pushed for a kept region (lines 56-67): the start is
clipped to the kernel's end address when the region also covers the kernel
image (`base_address <= kernel_start_address`), and the end is the region's
base address plus its length. -/
def regionEntry (env : BootInfo) (m : MultibootRegion) : FreeListEntry :=
  { start := if m.base_address ≤ env.kernel_start_address then
               env.kernel_end_address
             else
               m.base_address,
    endAddr := m.base_address + m.length }

/-- The `for m in ram_regions` loop of `detect_from_multiboot_info`
(lines 53-69): push one entry per kept region onto the free list and record
in `found_ram` whether any region was kept. -/
def multiboot_loop (env : BootInfo) :
    List MultibootRegion → List FreeListEntry → Bool → List FreeListEntry × Bool
  | [], fl, found_ram => (fl, found_ram)
  | m :: rest, fl, found_ram =>
    if regionKept env m then
      multiboot_loop env rest (fl ++ [regionEntry env m]) true
    else
      multiboot_loop env rest fl found_ram

/-- `detect_from_multiboot_info` (lines 40-73): `Err` when `mb_info` is zero,
panic when the multiboot structure has no memory map, iterate the kept
regions pushing entries, and panic when no available RAM was found. -/
def detect_from_multiboot_info (env : BootInfo) (fl : List FreeListEntry) :
    Outcome (List FreeListEntry) :=
  if env.mb_info = 0 then
    .err
  else
    match env.memory_map with
    | none => .panic .noMemoryMap
    | some all_regions =>
      let r := multiboot_loop env all_regions fl false
      if r.2 then .ok r.1 else .panic .noAvailableRam

/-- `detect_from_limits` (lines 75-89): `Err` when `limit` is zero, otherwise
push the single entry from the kernel's end address to `limit`. -/
def detect_from_limits (env : BootInfo) (fl : List FreeListEntry) :
    Outcome (List FreeListEntry) :=
  if env.limit = 0 then
    .err
  else
    .ok (fl ++ [{ start := env.kernel_end_address, endAddr := env.limit }])

/-- `init` (lines 91-95): `detect_from_multiboot_info().or_else(|_e|
detect_from_limits()).unwrap()`, starting from the empty free list. -/
def init (env : BootInfo) : Outcome (List FreeListEntry) :=
  match detect_from_multiboot_info env [] with
  | .ok fl => .ok fl
  | .panic d => .panic d
  | .err =>
    match detect_from_limits env [] with
    | .ok fl => .ok fl
    | .panic d => .panic d
    | .err => .panic .unwrapErr

/-- The two region-discovery sources of `init`. -/
inductive DiscoverySource where
  | multibootInfo
  | limits
deriving DecidableEq, Repr

/-- The sources `init` actually attempts, in order: `detect_from_limits` runs
exactly when `detect_from_multiboot_info` returned the recoverable `Err`. -/
def init_sources (env : BootInfo) : List DiscoverySource :=
  match detect_from_multiboot_info env [] with
  | .err => [.multibootInfo, .limits]
  | _ => [.multibootInfo]

namespace BasePageSize

/-- Modelled from the spec: `BasePageSize::SIZE` comes from the paging module,
which is not under src/; the spec fixes the base page size as "commonly 4096
bytes" and the data-model invariants are stated against this granularity. -/
def SIZE : Nat := 4096

end BasePageSize

namespace FreeList

/-- Modelled from the spec: the smallest multiple of `alignment` at or above
`address`, used by the aligned scan of the free-list allocator
(`mm::freelist` is not under src/). -/
def align_up (address alignment : Nat) : Nat :=
  (address + alignment - 1) / alignment * alignment

/-- Modelled from the spec: `FreeList::allocate` (`mm::freelist` is not under
src/). First-fit scan in list order; returns the address of the first region
with capacity at least `size`, consuming `size` bytes from its start and
removing the region entirely if it becomes empty; `OutOfMemory` (embedded as
`Except.error ()`) if no region qualifies. -/
def allocate (size : Nat) : List FreeListEntry → Except Unit (Nat × List FreeListEntry)
  | [] => .error ()
  | e :: rest =>
    if e.start + size ≤ e.endAddr then
      if e.start + size = e.endAddr then
        .ok (e.start, rest)
      else
        .ok (e.start, { start := e.start + size, endAddr := e.endAddr } :: rest)
    else
      match allocate size rest with
      | .ok (a, rest2) => .ok (a, e :: rest2)
      | .error u => .error u

/-- Modelled from the spec: `FreeList::allocate_aligned` (`mm::freelist` is
not under src/). Scans for a region whose first aligned address at or above
its start leaves room for `size` bytes; carving the middle of a region
reinserts the non-empty low and high remainders; `OutOfMemory` otherwise. -/
def allocate_aligned (size alignment : Nat) :
    List FreeListEntry → Except Unit (Nat × List FreeListEntry)
  | [] => .error ()
  | e :: rest =>
    let aligned_start := align_up e.start alignment
    if aligned_start + size ≤ e.endAddr then
      let low := if e.start < aligned_start then
                   [{ start := e.start, endAddr := aligned_start }]
                 else []
      let high := if aligned_start + size < e.endAddr then
                    [{ start := aligned_start + size, endAddr := e.endAddr }]
                  else []
      .ok (aligned_start, low ++ high ++ rest)
    else
      match allocate_aligned size alignment rest with
      | .ok (a, rest2) => .ok (a, e :: rest2)
      | .error u => .error u

/-- Modelled from the spec: `FreeList::deallocate` (`mm::freelist` is not
under src/). Inserts the region `[address, address+size)` in sorted position,
merging with the immediately preceding and following regions if adjacent. -/
def deallocate (address size : Nat) : List FreeListEntry → List FreeListEntry
  | [] => [{ start := address, endAddr := address + size }]
  | e :: rest =>
    if address + size = e.start then
      { start := address, endAddr := e.endAddr } :: rest
    else if address + size < e.start then
      { start := address, endAddr := address + size } :: e :: rest
    else if e.endAddr = address then
      match rest with
      | f :: rest2 =>
        if address + size = f.start then
          { start := e.start, endAddr := f.endAddr } :: rest2
        else
          { start := e.start, endAddr := address + size } :: rest
      | [] => [{ start := e.start, endAddr := address + size }]
    else
      e :: deallocate address size rest

end FreeList

/-- An interaction of the public façade with the node pool or the free list,
recorded in program order. -/
inductive PoolEvent where
  | maintain
  | freeListAllocate
  | freeListAllocateAligned
  | freeListDeallocate
deriving DecidableEq, Repr

/-- `allocate` (lines 97-104): asserts `size > 0` and that `size` is a
multiple of the page size, delegates to the free list, and panics on
`OutOfMemory`. The second component records the pool / free-list
interactions in program order. -/
def allocate (size : Nat) (fl : List FreeListEntry) :
    Outcome (Nat × List FreeListEntry) × List PoolEvent :=
  if ¬ 0 < size then
    (.panic .sizeZero, [])
  else if ¬ size % BasePageSize.SIZE = 0 then
    (.panic .sizeNotPageMultiple, [])
  else
    match FreeList.allocate size fl with
    | .ok r => (.ok r, [.freeListAllocate])
    | .error _ => (.panic .outOfMemory, [.freeListAllocate])

/-- `allocate_aligned` (lines 106-118): asserts `size > 0`, `alignment > 0`,
`size % alignment == 0` and `alignment % BasePageSize::SIZE == 0` in that
order, then calls `POOL.maintain()` followed by the free list's aligned
allocation, panicking on `OutOfMemory`. -/
def allocate_aligned (size alignment : Nat) (fl : List FreeListEntry) :
    Outcome (Nat × List FreeListEntry) × List PoolEvent :=
  if ¬ 0 < size then
    (.panic .sizeZero, [])
  else if ¬ 0 < alignment then
    (.panic .alignmentZero, [])
  else if ¬ size % alignment = 0 then
    (.panic .sizeNotAlignmentMultiple, [])
  else if ¬ alignment % BasePageSize.SIZE = 0 then
    (.panic .alignmentNotPageMultiple, [])
  else
    match FreeList.allocate_aligned size alignment fl with
    | .ok r => (.ok r, [.maintain, .freeListAllocateAligned])
    | .error _ => (.panic .outOfMemory, [.maintain, .freeListAllocateAligned])

/-- `deallocate` (lines 120-128): asserts the address is at least the
kernel's end address, `size > 0`, and `size` a page multiple, then delegates
to the free list; it never calls `POOL.maintain()` itself (that is done by
the virtual-memory deallocation path). -/
def deallocate (kernel_end physical_address size : Nat)
    (fl : List FreeListEntry) : Outcome (List FreeListEntry) × List PoolEvent :=
  if ¬ kernel_end ≤ physical_address then
    (.panic .addressBelowKernelEnd, [])
  else if ¬ 0 < size then
    (.panic .sizeZero, [])
  else if ¬ size % BasePageSize.SIZE = 0 then
    (.panic .sizeNotPageMultiple, [])
  else
    (.ok (FreeList.deallocate physical_address size fl), [.freeListDeallocate])

/-- The data-model invariant of a free region: non-empty, with page-aligned
start and page-aligned length. -/
def FreeRegionInvariant (e : FreeListEntry) : Prop :=
  e.start < e.endAddr ∧
  e.start % BasePageSize.SIZE = 0 ∧
  (e.endAddr - e.start) % BasePageSize.SIZE = 0

instance instDecidableFreeRegionInvariant (e : FreeListEntry) :
    Decidable (FreeRegionInvariant e) := by
  unfold FreeRegionInvariant
  infer_instance

theorem multiboot_loop_eq (env : BootInfo) (rs : List MultibootRegion)
    (fl : List FreeListEntry) (found : Bool) :
    multiboot_loop env rs fl found =
      (fl ++ (rs.filter (regionKept env)).map (regionEntry env),
       found || !(rs.filter (regionKept env)).isEmpty) := by
  induction rs generalizing fl found with
  | nil => simp [multiboot_loop]
  | cons m rest ih =>
    by_cases h : regionKept env m
    · simp [multiboot_loop, h, ih, List.filter_cons]
    · simp [multiboot_loop, h, ih, List.filter_cons]

theorem detect_from_multiboot_info_err_iff (env : BootInfo)
    (fl : List FreeListEntry) :
    detect_from_multiboot_info env fl = Outcome.err ↔ env.mb_info = 0 := by
  unfold detect_from_multiboot_info
  by_cases h : env.mb_info = 0
  · simp [h]
  · simp only [h, if_false]
    cases env.memory_map with
    | none => simp [h]
    | some rs =>
      by_cases h2 : (multiboot_loop env rs fl false).2 <;> simp [h, h2]

/-- One step of a processor initialization routine in
`src/librs/src/arch/x86_64/mod.rs`, named after the call it embeds. -/
inductive BootStep where
  | detectFeatures
  | configure
  | vgaInit
  | mmInit
  | mmPrintInformation
  | environmentInit
  | gdtInit
  | gdtAddCurrentCore
  | idtInstall
  | picInit
  | irqInstall
  | irqEnable
  | detectFrequency
  | processorPrintInformation
  | pciInit
  | pciPrintInformation
  | acpiInit
  | apicInit
  | installTimerHandler
  | percoreInit
  | initX2apic
  | initLocalApic
  | debugMessage
  | incrementCpuOnline
deriving DecidableEq, Repr

/-- `boot_processor_init` (lines 97-132) as the sequence of calls it makes,
parameterized by the `vga` cargo feature, `environment::is_single_kernel()`
and `environment::is_uhyve()`; the final step is the locked increment of
`cpu_online` (line 131). -/
def boot_processor_init (vga_feature single_kernel uhyve : Bool) :
    List BootStep :=
  [.detectFeatures, .configure]
  ++ (if vga_feature && single_kernel && !uhyve then [.vgaInit] else [])
  ++ [.mmInit, .mmPrintInformation, .environmentInit,
      .gdtInit, .gdtAddCurrentCore, .idtInstall]
  ++ (if !uhyve then [.picInit] else [])
  ++ [.irqInstall, .irqEnable, .detectFrequency, .processorPrintInformation]
  ++ (if single_kernel && !uhyve then
        [.pciInit, .pciPrintInformation, .acpiInit]
      else [])
  ++ [.apicInit, .installTimerHandler, .incrementCpuOnline]

/-- `application_processor_init` (lines 142-153) as the sequence of calls it
makes; the final step is the locked increment of `cpu_online` (line 152). -/
def application_processor_init : List BootStep :=
  [.percoreInit, .configure, .gdtAddCurrentCore, .idtInstall,
   .initX2apic, .initLocalApic, .irqEnable, .debugMessage,
   .incrementCpuOnline]

/-- The boot-processor sequence as the specification words it, phase by
phase: feature detection, processor configuration, optional display init,
memory manager init (with its diagnostic dump), environment init, descriptor
table setup, interrupt descriptor table install, interrupt controller init
(skipped under the hypervisor), interrupt enable (the `irq` module's handler
installation followed by enabling), frequency detection (with its diagnostic
dump), bus enumeration and firmware table init (single-kernel non-hypervisor
only), advanced interrupt controller init, timer handler install, and
finally the core-online counter increment. -/
def bootSpecSequence (vga_feature single_kernel uhyve : Bool) :
    List BootStep :=
  [.detectFeatures]
  ++ [.configure]
  ++ (if vga_feature && single_kernel && !uhyve then [.vgaInit] else [])
  ++ [.mmInit, .mmPrintInformation]
  ++ [.environmentInit]
  ++ [.gdtInit, .gdtAddCurrentCore]
  ++ [.idtInstall]
  ++ (if !uhyve then [.picInit] else [])
  ++ [.irqInstall, .irqEnable]
  ++ [.detectFrequency, .processorPrintInformation]
  ++ (if single_kernel && !uhyve then
        [.pciInit, .pciPrintInformation, .acpiInit]
      else [])
  ++ [.apicInit]
  ++ [.installTimerHandler]
  ++ [.incrementCpuOnline]

/-- The effect of one step on the shared `cpu_online` counter: only the
locked increment changes it, by exactly one; no step decrements it. -/
def stepDelta : BootStep → Nat
  | .incrementCpuOnline => 1
  | _ => 0

/-- Running a sequence of steps from a given counter value. -/
def runSteps (cpu_online : Nat) (steps : List BootStep) : Nat :=
  steps.foldl (fun c s => c + stepDelta s) cpu_online

/-- A processor initialization routine: the boot processor's (with its
environment flags) or an application processor's. -/
inductive InitRoutine where
  | bootProcessor (vga_feature single_kernel uhyve : Bool)
  | applicationProcessor
deriving DecidableEq, Repr

/-- The steps a routine performs. -/
def routineSteps : InitRoutine → List BootStep
  | .bootProcessor v s u => boot_processor_init v s u
  | .applicationProcessor => application_processor_init

/-- Running a sequence of completed routines (in any completion order) from
a given counter value; the spinlock around each increment makes every
completed routine contribute its full effect. -/
def runRoutines (cpu_online : Nat) (rs : List InitRoutine) : Nat :=
  rs.foldl (fun c r => runSteps c (routineSteps r)) cpu_online

theorem runSteps_append (c : Nat) (l1 l2 : List BootStep) :
    runSteps c (l1 ++ l2) = runSteps (runSteps c l1) l2 := by
  simp [runSteps, List.foldl_append]

theorem runSteps_routine (c : Nat) (r : InitRoutine) :
    runSteps c (routineSteps r) = c + 1 := by
  cases r with
  | bootProcessor v s u =>
    cases v <;> cases s <;> cases u <;>
      simp [routineSteps, boot_processor_init, runSteps, stepDelta]
  | applicationProcessor =>
    simp [routineSteps, application_processor_init, runSteps, stepDelta]

theorem runSteps_mono (steps : List BootStep) :
    ∀ c : Nat, c ≤ runSteps c steps := by
  induction steps with
  | nil => intro c; simp [runSteps]
  | cons s t ih =>
    intro c
    calc c ≤ c + stepDelta s := Nat.le_add_right c (stepDelta s)
    _ ≤ runSteps (c + stepDelta s) t := ih (c + stepDelta s)
    _ = runSteps c (s :: t) := rfl

/-- Claim C1: for every available multiboot memory region whose end exceeds
the kernel's end address, `init` via Source A inserts exactly one region
whose end is the region's base address plus its length, and whose start is
the kernel's end address if the region also covers the kernel image and the
region's own base address otherwise; regions not marked available, or whose
end does not exceed the kernel's end address, are not inserted. -/
theorem init_multiboot_available_regions (env : BootInfo)
    (rs : List MultibootRegion)
    (hmb : env.mb_info ≠ 0) (hmap : env.memory_map = some rs)
    (hram : rs.filter (regionKept env) ≠ []) :
    init env = Outcome.ok ((rs.filter (regionKept env)).map (regionEntry env)) := by
  have hemp : (rs.filter (regionKept env)).isEmpty = false := by
    simpa [List.isEmpty_iff] using hram
  simp [init, detect_from_multiboot_info, hmb, hmap, multiboot_loop_eq, hemp]

theorem init_multiboot_available_regions_witness :
    init { mb_info := 1,
           memory_map := some [
             { base_address := 0, length := 0x400000, is_available := true },
             { base_address := 0x400000, length := 0x100000, is_available := false },
             { base_address := 0x500000, length := 0x1000, is_available := true },
             { base_address := 0x10, length := 0x20, is_available := true }],
           limit := 0,
           kernel_start_address := 0x100000,
           kernel_end_address := 0x200000 }
      = Outcome.ok [{ start := 0x200000, endAddr := 0x400000 },
                    { start := 0x500000, endAddr := 0x501000 }] := by
  have h := init_multiboot_available_regions
    { mb_info := 1,
      memory_map := some [
        { base_address := 0, length := 0x400000, is_available := true },
        { base_address := 0x400000, length := 0x100000, is_available := false },
        { base_address := 0x500000, length := 0x1000, is_available := true },
        { base_address := 0x10, length := 0x20, is_available := true }],
      limit := 0,
      kernel_start_address := 0x100000,
      kernel_end_address := 0x200000 }
    [{ base_address := 0, length := 0x400000, is_available := true },
     { base_address := 0x400000, length := 0x100000, is_available := false },
     { base_address := 0x500000, length := 0x1000, is_available := true },
     { base_address := 0x10, length := 0x20, is_available := true }]
    (by decide) rfl (by decide)
  exact h.trans (by decide)

/-- Claim C2: `init` attempts Source A first and falls back to Source B if
and only if Source A found no boot-info pointer at all; a present boot-info
pointer whose map yields zero usable regions is fatal without trying Source
B; and when both the boot-info pointer and the limit are absent, `init` is
fatal. -/
theorem init_source_selection :
    (∀ env : BootInfo,
      init_sources env = [DiscoverySource.multibootInfo, DiscoverySource.limits]
        ↔ env.mb_info = 0) ∧
    (∀ (env : BootInfo) (rs : List MultibootRegion),
      env.mb_info ≠ 0 → env.memory_map = some rs →
      rs.filter (regionKept env) = [] → (init env).isPanic = true) ∧
    (∀ env : BootInfo,
      env.mb_info = 0 → env.limit = 0 → (init env).isPanic = true) := by
  refine ⟨?_, ?_, ?_⟩
  · intro env
    by_cases hmb : env.mb_info = 0
    · have hd := (detect_from_multiboot_info_err_iff env []).mpr hmb
      simp [init_sources, hd, hmb]
    · have hd : detect_from_multiboot_info env [] ≠ Outcome.err := fun h =>
        hmb ((detect_from_multiboot_info_err_iff env []).mp h)
      cases hdd : detect_from_multiboot_info env [] with
      | ok fl => simp [init_sources, hdd, hmb]
      | err => exact absurd hdd hd
      | panic d => simp [init_sources, hdd, hmb]
  · intro env rs hmb hmap hram
    have hemp : (rs.filter (regionKept env)).isEmpty = true := by
      simp [List.isEmpty_iff, hram]
    simp [init, detect_from_multiboot_info, hmb, hmap, multiboot_loop_eq,
      hemp, Outcome.isPanic]
  · intro env hmb hl
    have hd := (detect_from_multiboot_info_err_iff env []).mpr hmb
    simp [init, hd, detect_from_limits, hl, Outcome.isPanic]

theorem init_source_selection_witness :
    (init_sources { mb_info := 0, memory_map := none, limit := 0x800000,
                    kernel_start_address := 0x100000,
                    kernel_end_address := 0x200000 }
      = [DiscoverySource.multibootInfo, DiscoverySource.limits]) ∧
    (init { mb_info := 1,
            memory_map := some
              [{ base_address := 0, length := 0x1000, is_available := false }],
            limit := 0x800000, kernel_start_address := 0x100000,
            kernel_end_address := 0x200000 }).isPanic = true ∧
    (init { mb_info := 0, memory_map := none, limit := 0,
            kernel_start_address := 0x100000,
            kernel_end_address := 0x200000 }).isPanic = true := by
  refine ⟨?_, ?_, ?_⟩
  · exact (init_source_selection.1
      { mb_info := 0, memory_map := none, limit := 0x800000,
        kernel_start_address := 0x100000,
        kernel_end_address := 0x200000 }).mpr rfl
  · exact init_source_selection.2.1
      { mb_info := 1,
        memory_map := some
          [{ base_address := 0, length := 0x1000, is_available := false }],
        limit := 0x800000, kernel_start_address := 0x100000,
        kernel_end_address := 0x200000 }
      [{ base_address := 0, length := 0x1000, is_available := false }]
      (by decide) rfl (by decide)
  · exact init_source_selection.2.2
      { mb_info := 0, memory_map := none, limit := 0,
        kernel_start_address := 0x100000, kernel_end_address := 0x200000 }
      rfl rfl

/-- Claim C8: when the externally supplied `limit` is non-zero and Source A
found no boot-info pointer, `init` populates the free list with exactly one
region from the kernel's end address to `limit`. -/
theorem init_flat_limit_region (env : BootInfo)
    (hmb : env.mb_info = 0) (hl : env.limit ≠ 0) :
    init env = Outcome.ok
      [{ start := env.kernel_end_address, endAddr := env.limit }] := by
  have hd := (detect_from_multiboot_info_err_iff env []).mpr hmb
  simp [init, hd, detect_from_limits, hl]

theorem init_flat_limit_region_witness :
    init { mb_info := 0, memory_map := none, limit := 0x800000,
           kernel_start_address := 0x100000, kernel_end_address := 0x200000 }
      = Outcome.ok [{ start := 0x200000, endAddr := 0x800000 }] :=
  init_flat_limit_region
    { mb_info := 0, memory_map := none, limit := 0x800000,
      kernel_start_address := 0x100000, kernel_end_address := 0x200000 }
    rfl (by decide)

/-- Claim C9: `detect_from_limits` validates nothing beyond `limit` being
non-zero: for every non-zero `limit`, including one at or below the kernel's
end address, it succeeds and inserts the region from the kernel's end
address to `limit`; a limit at or below the kernel's end therefore yields a
region violating the free-region invariant instead of a fatal error. -/
theorem detect_from_limits_no_validation (env : BootInfo)
    (fl : List FreeListEntry) (hl : env.limit ≠ 0) :
    detect_from_limits env fl = Outcome.ok
      (fl ++ [{ start := env.kernel_end_address, endAddr := env.limit }]) ∧
    (env.limit ≤ env.kernel_end_address →
      ¬ FreeRegionInvariant
        { start := env.kernel_end_address, endAddr := env.limit }) := by
  constructor
  · simp [detect_from_limits, hl]
  · intro hle hinv
    exact absurd hinv.1 (by simpa using Nat.not_lt.mpr hle)

theorem detect_from_limits_no_validation_witness :
    (detect_from_limits
        { mb_info := 0, memory_map := none, limit := 0x1000,
          kernel_start_address := 0x100000, kernel_end_address := 0x200000 } []
      = Outcome.ok [{ start := 0x200000, endAddr := 0x1000 }]) ∧
    ¬ FreeRegionInvariant { start := 0x200000, endAddr := 0x1000 } := by
  have h := detect_from_limits_no_validation
    { mb_info := 0, memory_map := none, limit := 0x1000,
      kernel_start_address := 0x100000, kernel_end_address := 0x200000 }
    [] (by decide)
  exact ⟨h.1, h.2 (by decide)⟩

/-- Claim C10: `allocate_aligned` with alignment zero is fatal for every
size; the `alignment > 0` assertion fires before any free-list access (no
pool or free-list event is recorded), and zero is indeed a multiple of the
page size, so the zero-size and page-multiple checks alone would not reject
it. -/
theorem allocate_aligned_zero_alignment_fatal :
    ∀ (size : Nat) (fl : List FreeListEntry),
      ((allocate_aligned size 0 fl).1.isPanic = true) ∧
      (allocate_aligned size 0 fl).2 = [] ∧
      (0 : Nat) % BasePageSize.SIZE = 0 := by
  intro size fl
  by_cases h0 : 0 < size <;>
    simp [allocate_aligned, h0, Outcome.isPanic, BasePageSize.SIZE]

/-- Claim C3: every failure of the public allocator operations terminates
the process rather than returning a value: zero or non-page-multiple sizes
for `allocate`, non-page-multiple alignment or size not a multiple of the
alignment for `allocate_aligned`, an address below the kernel's end or a
zero or non-page-multiple size for `deallocate`, and free-list exhaustion
for both allocation operations are each a panic with a diagnostic, and no
operation ever returns the recoverable `err`. -/
theorem public_operation_failures_are_fatal :
    (∀ (size : Nat) (fl : List FreeListEntry),
      size = 0 ∨ ¬ size % BasePageSize.SIZE = 0 →
      (allocate size fl).1.isPanic = true) ∧
    (∀ (size alignment : Nat) (fl : List FreeListEntry),
      ¬ alignment % BasePageSize.SIZE = 0 ∨ ¬ size % alignment = 0 →
      (allocate_aligned size alignment fl).1.isPanic = true) ∧
    (∀ (kernel_end physical_address size : Nat) (fl : List FreeListEntry),
      physical_address < kernel_end ∨ size = 0 ∨ ¬ size % BasePageSize.SIZE = 0 →
      (deallocate kernel_end physical_address size fl).1.isPanic = true) ∧
    (∀ (size : Nat) (fl : List FreeListEntry),
      FreeList.allocate size fl = Except.error () →
      (allocate size fl).1.isPanic = true) ∧
    (∀ (size alignment : Nat) (fl : List FreeListEntry),
      FreeList.allocate_aligned size alignment fl = Except.error () →
      (allocate_aligned size alignment fl).1.isPanic = true) ∧
    (∀ (size : Nat) (fl : List FreeListEntry),
      (allocate size fl).1 ≠ Outcome.err) ∧
    (∀ (size alignment : Nat) (fl : List FreeListEntry),
      (allocate_aligned size alignment fl).1 ≠ Outcome.err) ∧
    (∀ (kernel_end physical_address size : Nat) (fl : List FreeListEntry),
      (deallocate kernel_end physical_address size fl).1 ≠ Outcome.err) := by
  refine ⟨?_, ?_, ?_, ?_, ?_, ?_, ?_, ?_⟩
  · intro size fl h
    rcases h with h | h
    · simp [allocate, h, Outcome.isPanic]
    · by_cases h0 : 0 < size <;> simp [allocate, h0, h, Outcome.isPanic]
  · intro size alignment fl h
    by_cases h0 : 0 < size
    · by_cases h1 : 0 < alignment
      · by_cases h2 : size % alignment = 0
        · have h3 : ¬ alignment % BasePageSize.SIZE = 0 := by tauto
          simp [allocate_aligned, h0, h1, h2, h3, Outcome.isPanic]
        · simp [allocate_aligned, h0, h1, h2, Outcome.isPanic]
      · simp [allocate_aligned, h0, h1, Outcome.isPanic]
    · simp [allocate_aligned, h0, Outcome.isPanic]
  · intro ke pa size fl h
    rcases h with h | h | h
    · simp [deallocate, Nat.not_le.mpr h, Outcome.isPanic]
    · by_cases hk : ke ≤ pa <;> simp [deallocate, hk, h, Outcome.isPanic]
    · by_cases hk : ke ≤ pa
      · by_cases h0 : 0 < size <;>
          simp [deallocate, hk, h0, h, Outcome.isPanic]
      · simp [deallocate, hk, Outcome.isPanic]
  · intro size fl h
    by_cases h0 : 0 < size
    · by_cases h1 : size % BasePageSize.SIZE = 0 <;>
        simp [allocate, h0, h1, h, Outcome.isPanic]
    · simp [allocate, h0, Outcome.isPanic]
  · intro size alignment fl h
    by_cases h0 : 0 < size
    · by_cases h1 : 0 < alignment
      · by_cases h2 : size % alignment = 0
        · by_cases h3 : alignment % BasePageSize.SIZE = 0 <;>
            simp [allocate_aligned, h0, h1, h2, h3, h, Outcome.isPanic]
        · simp [allocate_aligned, h0, h1, h2, Outcome.isPanic]
      · simp [allocate_aligned, h0, h1, Outcome.isPanic]
    · simp [allocate_aligned, h0, Outcome.isPanic]
  · intro size fl
    by_cases h0 : 0 < size
    · by_cases h1 : size % BasePageSize.SIZE = 0
      · cases h : FreeList.allocate size fl with
        | ok r => simp [allocate, h0, h1, h]
        | error u => simp [allocate, h0, h1, h]
      · simp [allocate, h0, h1]
    · simp [allocate, h0]
  · intro size alignment fl
    by_cases h0 : 0 < size
    · by_cases h1 : 0 < alignment
      · by_cases h2 : size % alignment = 0
        · by_cases h3 : alignment % BasePageSize.SIZE = 0
          · cases h : FreeList.allocate_aligned size alignment fl with
            | ok r => simp [allocate_aligned, h0, h1, h2, h3, h]
            | error u => simp [allocate_aligned, h0, h1, h2, h3, h]
          · simp [allocate_aligned, h0, h1, h2, h3]
        · simp [allocate_aligned, h0, h1, h2]
      · simp [allocate_aligned, h0, h1]
    · simp [allocate_aligned, h0]
  · intro ke pa size fl
    by_cases hk : ke ≤ pa
    · by_cases h0 : 0 < size
      · by_cases h1 : size % BasePageSize.SIZE = 0 <;>
          simp [deallocate, hk, h0, h1]
      · simp [deallocate, hk, h0]
    · simp [deallocate, hk]

theorem public_operation_failures_are_fatal_witness :
    ((allocate 0 []).1.isPanic = true) ∧
    ((allocate_aligned 4096 5 []).1.isPanic = true) ∧
    ((deallocate 4096 0 4096 []).1.isPanic = true) ∧
    ((allocate 4096 []).1.isPanic = true) ∧
    ((allocate_aligned 4096 4096 []).1.isPanic = true) ∧
    ((allocate 0 []).1 ≠ Outcome.err) ∧
    ((allocate_aligned 0 0 []).1 ≠ Outcome.err) ∧
    ((deallocate 0 0 0 []).1 ≠ Outcome.err) :=
  ⟨public_operation_failures_are_fatal.1 0 [] (Or.inl rfl),
   public_operation_failures_are_fatal.2.1 4096 5 [] (Or.inl (by decide)),
   public_operation_failures_are_fatal.2.2.1 4096 0 4096 [] (Or.inl (by decide)),
   public_operation_failures_are_fatal.2.2.2.1 4096 [] rfl,
   public_operation_failures_are_fatal.2.2.2.2.1 4096 4096 [] rfl,
   public_operation_failures_are_fatal.2.2.2.2.2.1 0 [],
   public_operation_failures_are_fatal.2.2.2.2.2.2.1 0 0 [],
   public_operation_failures_are_fatal.2.2.2.2.2.2.2 0 0 0 []⟩

/-- Claim C4: among the public operations, only `allocate_aligned` triggers
node-pool maintenance, and when it reaches the free list its event sequence
is exactly `maintain` followed by the aligned allocation scan; `allocate`
and `deallocate` never record a `maintain` event. -/
theorem pool_maintenance_only_in_allocate_aligned :
    (∀ (size : Nat) (fl : List FreeListEntry),
      ((allocate size fl).2).contains PoolEvent.maintain = false) ∧
    (∀ (kernel_end physical_address size : Nat) (fl : List FreeListEntry),
      ((deallocate kernel_end physical_address size fl).2).contains
        PoolEvent.maintain = false) ∧
    (∀ (size alignment : Nat) (fl : List FreeListEntry),
      (allocate_aligned size alignment fl).2 = [] ∨
      (allocate_aligned size alignment fl).2 =
        [PoolEvent.maintain, PoolEvent.freeListAllocateAligned]) := by
  refine ⟨?_, ?_, ?_⟩
  · intro size fl
    by_cases h0 : 0 < size
    · by_cases h1 : size % BasePageSize.SIZE = 0
      · cases h : FreeList.allocate size fl with
        | ok r => simp [allocate, h0, h1, h]
        | error u => simp [allocate, h0, h1, h]
      · simp [allocate, h0, h1]
    · simp [allocate, h0]
  · intro ke pa size fl
    by_cases hk : ke ≤ pa
    · by_cases h0 : 0 < size
      · by_cases h1 : size % BasePageSize.SIZE = 0 <;>
          simp [deallocate, hk, h0, h1]
      · simp [deallocate, hk, h0]
    · simp [deallocate, hk]
  · intro size alignment fl
    by_cases h0 : 0 < size
    · by_cases h1 : 0 < alignment
      · by_cases h2 : size % alignment = 0
        · by_cases h3 : alignment % BasePageSize.SIZE = 0
          · cases h : FreeList.allocate_aligned size alignment fl with
            | ok r => right; simp [allocate_aligned, h0, h1, h2, h3, h]
            | error u => right; simp [allocate_aligned, h0, h1, h2, h3, h]
          · left; simp [allocate_aligned, h0, h1, h2, h3]
        · left; simp [allocate_aligned, h0, h1, h2]
      · left; simp [allocate_aligned, h0, h1]
    · left; simp [allocate_aligned, h0]

/-- Claim C5: `boot_processor_init` performs its steps in the exact order
the specification lists (display init, interrupt controller init, and bus
enumeration plus firmware table init being conditional on the environment
flags), and its final step is the core-online counter increment. -/
theorem boot_processor_init_order :
    ∀ vga_feature single_kernel uhyve : Bool,
      boot_processor_init vga_feature single_kernel uhyve =
        bootSpecSequence vga_feature single_kernel uhyve ∧
      (boot_processor_init vga_feature single_kernel uhyve).getLast? =
        some BootStep.incrementCpuOnline := by
  intro v s u
  cases v <;> cases s <;> cases u <;> exact ⟨rfl, by decide⟩

/-- Claim C6: each processor initialization routine increments the shared
core-online counter by exactly one as its last action, the counter is never
decremented by any step, and after any sequence of completed routines the
counter equals its initial value plus the number of routines completed,
regardless of completion order. -/
theorem core_online_counter_increments :
    (∀ (cpu_online : Nat) (rs : List InitRoutine),
      runRoutines cpu_online rs = cpu_online + rs.length) ∧
    (∀ r : InitRoutine,
      (routineSteps r).getLast? = some BootStep.incrementCpuOnline) ∧
    (∀ r : InitRoutine,
      (routineSteps r).count BootStep.incrementCpuOnline = 1) ∧
    (∀ (cpu_online : Nat) (steps : List BootStep),
      cpu_online ≤ runSteps cpu_online steps) := by
  refine ⟨?_, ?_, ?_, ?_⟩
  · intro c rs
    induction rs generalizing c with
    | nil => simp [runRoutines]
    | cons r rest ih =>
      have : runRoutines c (r :: rest) = runRoutines (runSteps c (routineSteps r)) rest := rfl
      rw [this, runSteps_routine, ih]
      simp [Nat.add_assoc, Nat.add_comm 1 rest.length]
  · intro r
    cases r with
    | bootProcessor v s u => cases v <;> cases s <;> cases u <;> decide
    | applicationProcessor => decide
  · intro r
    cases r with
    | bootProcessor v s u => cases v <;> cases s <;> cases u <;> decide
    | applicationProcessor => decide
  · intro c steps
    exact runSteps_mono steps c

/-- Claim C7 as stated is false: `init` completing via Source B with a
non-zero `limit` below the kernel's end address yields a free-list region
with `start` at the kernel's end and `endAddr` at `limit`, which violates
the free-region invariant. -/
theorem init_region_invariant_counterexample :
    init { mb_info := 0, memory_map := none, limit := 0x1000,
           kernel_start_address := 0x100000, kernel_end_address := 0x200000 }
      = Outcome.ok [{ start := 0x200000, endAddr := 0x1000 }] ∧
    ¬ FreeRegionInvariant { start := 0x200000, endAddr := 0x1000 } := by
  decide

/-- Claim C7, amended: after `init` completes via either discovery source,
every region in the free list satisfies the free-region invariant, provided
the discovery inputs are well formed: the kernel's end address is a page
multiple, every kept map region has page-aligned base and length and
positive length, and a non-zero `limit` used as fallback is a page multiple
exceeding the kernel's end address. -/
theorem init_region_invariant_amended (env : BootInfo)
    (hke : env.kernel_end_address % BasePageSize.SIZE = 0)
    (hmap : ∀ m ∈ env.memory_map.getD [], regionKept env m = true →
      m.base_address % BasePageSize.SIZE = 0 ∧
      m.length % BasePageSize.SIZE = 0 ∧ 0 < m.length)
    (hlim : env.mb_info = 0 → env.limit ≠ 0 →
      env.limit % BasePageSize.SIZE = 0 ∧ env.kernel_end_address < env.limit) :
    ∀ fl, init env = Outcome.ok fl → ∀ e ∈ fl, FreeRegionInvariant e := by
  intro fl hinit e he
  by_cases hmb : env.mb_info = 0
  · have hd := (detect_from_multiboot_info_err_iff env []).mpr hmb
    by_cases hl : env.limit = 0
    · simp [init, hd, detect_from_limits, hl] at hinit
    · simp [init, hd, detect_from_limits, hl] at hinit
      obtain ⟨hlp, hlt⟩ := hlim hmb hl
      rw [← hinit] at he
      simp at he
      subst he
      refine ⟨by simpa using hlt, ?_, ?_⟩ <;>
        simp only [BasePageSize.SIZE] at * <;> omega
  · cases hmm : env.memory_map with
    | none => simp [init, detect_from_multiboot_info, hmb, hmm] at hinit
    | some rs =>
      by_cases hemp : (rs.filter (regionKept env)).isEmpty
      · simp [init, detect_from_multiboot_info, hmb, hmm, multiboot_loop_eq,
          hemp] at hinit
      · simp only [Bool.not_eq_true] at hemp
        simp [init, detect_from_multiboot_info, hmb, hmm, multiboot_loop_eq,
          hemp] at hinit
        rw [← hinit] at he
        obtain ⟨m, hmfil, hme⟩ := List.mem_map.mp he
        have hmem : m ∈ rs := (List.mem_filter.mp hmfil).1
        have hmk : regionKept env m = true := (List.mem_filter.mp hmfil).2
        obtain ⟨hb, hlen, hpos⟩ := hmap m (by simp [hmm]; exact hmem) hmk
        have hkept : env.kernel_end_address < m.base_address + m.length := by
          have := hmk
          unfold regionKept at this
          simp at this
          exact this.2
        subst hme
        unfold regionEntry FreeRegionInvariant
        by_cases hcover : m.base_address ≤ env.kernel_start_address <;>
          simp only [hcover, if_true, if_false, reduceIte] <;>
          refine ⟨?_, ?_, ?_⟩ <;>
          simp only [BasePageSize.SIZE] at * <;> omega

theorem init_region_invariant_amended_witness :
    FreeRegionInvariant { start := 0x200000, endAddr := 0x800000 } := by
  have h := init_region_invariant_amended
    { mb_info := 0, memory_map := none, limit := 0x800000,
      kernel_start_address := 0x100000, kernel_end_address := 0x200000 }
    (by decide) (by intro m hm; simp at hm) (by intro h1 h2; exact ⟨by decide, by decide⟩)
    [{ start := 0x200000, endAddr := 0x800000 }] (by decide)
    { start := 0x200000, endAddr := 0x800000 } (by simp)
  exact h

end Hermit
